import Mathlib

/-!
Verification of the `ballistica` client-session command interpreter
(`src/ballistica/game/session/client_session.cc`).

We shallowly embed the relevant parts of the code:
- command buffers are `List Nat` of byte values,
- the bounds-checked cursor reads (`ReadInt32`, `ReadString`),
- the `kBaseTimeStep` and `kDynamicsCorrection` command handlers,
- the `AddCommand` pending/ready queueing logic,
- the `End`/`Update` shutdown handling,
- the `BA_MESSAGE_SESSION_COMMANDS` envelope splitting.

Pointer comparisons in the C++ (`ptr > base + size - k`) are modelled as
integer comparisons on positions (`(pos : Int) > (len : Int) - k`), which
matches the pointer arithmetic.  Reads that the C++ performs without a
bounds check (raw `memcpy` / `operator[]`) are modelled with `List.getD`
(an out-of-range access yields 0) while a `maxRead` field records one past
the highest byte index the code actually touched, so out-of-bounds
accesses are observable in the model.
-/

namespace Ballistica

/-- A command buffer: a list of byte values. -/
abbrev Cmd := List Nat

instance {ε α : Type} [DecidableEq ε] [DecidableEq α] :
    DecidableEq (Except ε α) := fun x y =>
  match x, y with
  | .ok a, .ok b =>
    if h : a = b then .isTrue (h ▸ rfl)
    else .isFalse fun hh => h (Except.ok.inj hh)
  | .ok _, .error _ => .isFalse fun hh => Except.noConfusion hh
  | .error _, .ok _ => .isFalse fun hh => Except.noConfusion hh
  | .error e, .error f =>
    if h : e = f then .isTrue (h ▸ rfl)
    else .isFalse fun hh => h (Except.error.inj hh)

/-- Little-endian 16-bit read at `i` (models a raw `memcpy` of a `uint16_t`). -/
def u16At (buf : Cmd) (i : Nat) : Nat :=
  buf.getD i 0 + 256 * buf.getD (i + 1) 0

/-- Little-endian 32-bit read at `i` (models a raw `memcpy` of a `uint32_t`). -/
def u32At (buf : Cmd) (i : Nat) : Nat :=
  buf.getD i 0 + 256 * buf.getD (i + 1) 0 + 65536 * buf.getD (i + 2) 0
    + 16777216 * buf.getD (i + 3) 0

/-- Little-endian 32-bit read at `i`, interpreted as a signed `int32_t`. -/
def int32At (buf : Cmd) (i : Nat) : Int :=
  let u := u32At buf i
  if u < 2147483648 then (u : Int) else (u : Int) - 4294967296

/-- The little-endian byte encoding of a 32-bit value. -/
def le32 (n : Nat) : Cmd :=
  [n % 256, n / 256 % 256, n / 65536 % 256, n / 16777216 % 256]

/-- `static_cast<size_t>` of a signed value on a 64-bit platform. -/
def usizeCast (s : Int) : Nat := (s % (18446744073709551616 : Int)).toNat

/-- `ClientSession::ReadInt32` (client_session.cc lines 84-92): fails when
fewer than 4 bytes remain (`current_cmd_ptr_ > base + size - 4`), otherwise
decodes a little-endian signed 32-bit value and advances the cursor by 4. -/
def ReadInt32 (buf : Cmd) (pos : Nat) : Except String (Int × Nat) :=
  if (pos : Int) > (buf.length : Int) - 4 then .error "state read error"
  else .ok (int32At buf pos, pos + 4)

/-- The bytes of the `std::string` built from the char buffer in
`ClientSession::ReadString`: the copied payload bytes up to (excluding) the
first NUL byte; recursion is on the copy count, and a byte past the end of
the source buffer is modelled as 0. -/
def payloadTrunc (buf : Cmd) : Nat → Nat → List Nat
  | _, 0 => []
  | i, n + 1 =>
    let b := buf.getD i 0
    if b = 0 then [] else b :: payloadTrunc buf (i + 1) n

/-- Observable outcome of `ClientSession::ReadString`. -/
structure ReadStringOut where
  /-- bytes of the returned `std::string` (truncated at the first NUL) -/
  chars : List Nat
  /-- index of the first byte the payload `memcpy` reads -/
  copyStart : Nat
  /-- number of bytes the payload `memcpy` reads (`static_cast<size_t>(size)`) -/
  copyCount : Nat
  /-- cursor position after `current_cmd_ptr_ += size` (signed advance) -/
  newPos : Int
  deriving Repr, DecidableEq

/-- `ClientSession::ReadString` (client_session.cc lines 158-172): checks 4
bytes remain, reads a signed 32-bit length `size`, then checks
`current_cmd_ptr_ > base + buf.size() - size` (pointer arithmetic, so a
negative `size` moves the limit past the end), and finally copies
`static_cast<size_t>(size)` bytes and advances the cursor by `size`. -/
def ReadString (buf : Cmd) (pos : Nat) : Except String ReadStringOut :=
  if (pos : Int) > (buf.length : Int) - 4 then .error "state read error"
  else
    let size : Int := int32At buf pos
    let pos4 := pos + 4
    if (pos4 : Int) > (buf.length : Int) - size then .error "state read error"
    else
      let cnt := usizeCast size
      .ok { chars := payloadTrunc buf pos4 cnt
            copyStart := pos4
            copyCount := cnt
            newPos := (pos4 : Int) + size }

/-- The `SessionCommand::kBaseTimeStep` case of `ClientSession::Update`
(client_session.cc lines 221-232): decode a signed 32-bit step size,
require it strictly positive (`BA_PRECONDITION(stepsize > 0)`), reject
step sizes above 10000 as corruption, subtract from the buffered-time
counter, require the counter nonnegative, and add the step to base time.
Returns the new `(base_time_buffered_, base_time_)` pair and cursor. -/
def execBaseTimeStep (buf : Cmd) (pos : Nat) (buffered baseTime : Int) :
    Except String (Int × Int × Nat) :=
  match ReadInt32 buf pos with
  | .error e => .error e
  | .ok (stepsize, pos') =>
    if ¬ stepsize > 0 then .error "precondition failed: stepsize > 0"
    else if stepsize > 10000 then
      .error "got abnormally large stepsize; probably a corrupt stream"
    else
      let buffered' := buffered - stepsize
      if ¬ buffered' ≥ 0 then
        .error "precondition failed: base_time_buffered_ >= 0"
      else .ok (buffered', baseTime + stepsize, pos')

/-- The numeric value of `SessionCommand::kBaseTimeStep`.  The enum lives in
a header outside the provided sources; only its identity (equality with a
command's first byte) matters for the properties below. -/
def kBaseTimeStep : Nat := 1

/-- The numeric value of `SessionCommand::kDynamicsCorrection`; as with
`kBaseTimeStep`, only its identity matters. -/
def kDynamicsCorrection : Nat := 2

/-- The test `!command.empty() && command[0] == kBaseTimeStep` from
`ClientSession::AddCommand`. -/
def isStepCmd (c : Cmd) : Bool :=
  match c with
  | [] => false
  | b :: _ => b = kBaseTimeStep

/-- The command queues of a `ClientSession`: `commands_pending_`,
`commands_`, and the `base_time_buffered_` tally. -/
structure CmdQueues where
  pending : List Cmd
  ready : List Cmd
  baseTimeBuffered : Int
  deriving Repr, DecidableEq

/-- `ClientSession::AddCommand` (client_session.cc lines 1027-1048): the
command is pushed onto the pending list; if it is a (non-empty) step
command, `base_time_buffered_` is increased by `command[1]` (a single byte)
and every pending command is moved onto the ready list. -/
def AddCommand (q : CmdQueues) (c : Cmd) : CmdQueues :=
  let pending := q.pending ++ [c]
  if isStepCmd c then
    { pending := []
      ready := q.ready ++ pending
      baseTimeBuffered := q.baseTimeBuffered + (c.getD 1 0 : Int) }
  else { q with pending := pending }

/-- The session state visible to `End`, `Update` and `AddCommand`:
the shutdown flag, the command queues, the time counters, and a count of
`kLaunchMainMenuSessionCall` pushes (the side effect of `End`). -/
structure Session where
  shuttingDown : Bool
  queues : CmdQueues
  baseTime : Int
  targetBaseTime : Int
  launchMainMenuCalls : Nat
  deriving Repr, DecidableEq

/-- `ClientSession::End` (client_session.cc lines 960-964): a no-op when
already shutting down; otherwise sets the flag and pushes the
main-menu-launch call once. -/
def EndSession (s : Session) : Session :=
  if s.shuttingDown then s
  else { s with shuttingDown := true
                launchMainMenuCalls := s.launchMainMenuCalls + 1 }

/-- `ClientSession::Update` (client_session.cc lines 174-862): returns
immediately when shutting down; the rest of the body (time-gate loop and
opcode dispatch, modelled piecewise elsewhere in this file) is abstracted
as `body`. -/
def UpdateSession (body : Session → Int → Session) (s : Session) (t : Int) :
    Session :=
  if s.shuttingDown then s else body s t

/-- `ClientSession::AddCommand` lifted to the session state: it mutates the
queues only and consults no other field (in particular not
`shutting_down_`). -/
def SessionAddCommand (s : Session) (c : Cmd) : Session :=
  { s with queues := AddCommand s.queues c }

/-- A session state with cleared queues and zeroed counters, as set up by
the `ClientSession` constructor via `ClearSessionObjs`. -/
def initSession : Session :=
  { shuttingDown := false
    queues := { pending := [], ready := [], baseTimeBuffered := 0 }
    baseTime := 0
    targetBaseTime := 0
    launchMainMenuCalls := 0 }

/-- State of the `BA_MESSAGE_SESSION_COMMANDS` splitting loop in
`ClientSession::HandleSessionMessage` (client_session.cc lines 979-1006).
`maxRead` records one past the highest byte index accessed. -/
structure SplitSt where
  offset : Nat
  maxRead : Nat
  added : List Cmd
  errored : Bool
  done : Bool
  deriving Repr, DecidableEq

/-- One iteration of the splitting loop: read a `uint16` length at
`offset` (unchecked), fail with a session error when
`offset + size > buffer.size()`, otherwise copy `size` bytes starting at
`offset + 2` (unchecked) into a sub-buffer handed to `AddCommand`, advance
`offset` by `2 + size`, and stop when `offset == buffer.size()`. -/
def splitStep (buf : Cmd) (st : SplitSt) : SplitSt :=
  if st.done || st.errored then st
  else
    let size := u16At buf st.offset
    let st1 := { st with maxRead := max st.maxRead (st.offset + 2) }
    if st1.offset + size > buf.length then { st1 with errored := true }
    else
      let sub := (List.range size).map fun i => buf.getD (st1.offset + 2 + i) 0
      let st2 := { st1 with
        maxRead := max st1.maxRead (st1.offset + 2 + size)
        added := st1.added ++ [sub] }
      let off := st2.offset + 2 + size
      if off = buf.length then { st2 with offset := off, done := true }
      else { st2 with offset := off }

/-- The splitting loop run for at most `fuel` iterations, starting at
`offset = 1` (just past the message-kind byte) as in the source. -/
def splitCommands (buf : Cmd) : Nat → SplitSt
  | 0 => { offset := 1, maxRead := 1, added := [], errored := false
           done := false }
  | n + 1 => splitStep buf (splitCommands buf n)

/-- Modelled from the spec: a node's rigid bodies, addressable by a small
local index (`Node::GetRigidBody` is outside the provided sources).  Each
present body is abstracted to the number of bytes its `ExtractFull`
consumes (the serialized size of its full state). -/
structure NodeM where
  bodies : List (Option Nat)
  deriving Repr, DecidableEq

/-- A state mutation performed while decoding a dynamics correction:
either a body had the corrected state applied, or a node received custom
resync data. -/
inductive DynEvent where
  | bodyCorrected (nodeId bodyId : Nat)
  | resync (nodeId : Nat) (data : List Nat)
  deriving Repr, DecidableEq

/-- Decoder state for the `kDynamicsCorrection` handler.  `maxRead`
records one past the highest byte index accessed by any raw read. -/
structure DynSt where
  offset : Nat
  maxRead : Nat
  events : List DynEvent
  err : Option String
  deriving Repr, DecidableEq

/-- Record a raw read of `n` bytes starting at index `i`. -/
def DynSt.note (st : DynSt) (i n : Nat) : DynSt :=
  { st with maxRead := max st.maxRead (i + n) }

/-- The per-body part of the `kDynamicsCorrection` loop (client_session.cc
lines 246-272): read a body index byte and a `uint16` payload length (both
unchecked), look the body up on the node, and when present run
`ExtractFull` over the payload and fail unless it consumed exactly the
declared length; then skip the declared length and fail if the offset
passed the buffer end. -/
def dynBodyStep (buf : Cmd) (n : Option NodeM) (nodeId : Nat) (st : DynSt) :
    DynSt :=
  if st.err.isSome then st
  else
    let bodyid := buf.getD st.offset 0
    let st1 := st.note st.offset 1
    let off1 := st1.offset + 1
    let bodyDataLen := u16At buf off1
    let st2 := st1.note off1 2
    let b : Option Nat :=
      match n with
      | some nd => nd.bodies.getD bodyid none
      | none => none
    let off2 := off1 + 2
    let st3 :=
      match b with
      | some extractLen =>
        let stR := st2.note off2 extractLen
        if extractLen ≠ bodyDataLen then
          { stR with err := some "Invalid rbd correction data" }
        else
          { stR with events := stR.events ++ [.bodyCorrected nodeId bodyid] }
      | none => st2
    if st3.err.isSome then st3
    else
      let off3 := off2 + bodyDataLen
      if off3 > buf.length then
        { st3 with offset := off3, err := some "Invalid rbd correction data" }
      else { st3 with offset := off3 }

/-- The node-table lookup performed by the correction decoder
(client_session.cc lines 244-245):
`(node_id < nodes_.size()) ? nodes_[node_id].get() : nullptr`, where an
empty slot also yields null. -/
def nodeLookup (nodes : List (Option NodeM)) (nodeId : Nat) : Option NodeM :=
  if nodeId < nodes.length then nodes.getD nodeId none else none

/-- The tail of a node entry after the body loop (client_session.cc lines
273-289): check the offset against the buffer, read a `uint16`
custom-data length (unchecked) and, when nonzero, copy that many bytes
(unchecked) and apply them to the node when it exists; finally check the
offset again. -/
def dynNodeCustom (buf : Cmd) (n : Option NodeM) (nodeId : Nat)
    (st3 : DynSt) : DynSt :=
  if st3.err.isSome then st3
  else if st3.offset > buf.length then
    { st3 with err := some "Invalid rbd correction data" }
  else
    let cdl := u16At buf st3.offset
    let st4 := st3.note st3.offset 2
    let off4 := st4.offset + 2
    let st5 :=
      if cdl ≠ 0 then
        let data := (List.range cdl).map fun i => buf.getD (off4 + i) 0
        let stR := st4.note off4 cdl
        let stE :=
          if n.isSome then
            { stR with events := stR.events ++ [.resync nodeId data] }
          else stR
        { stE with offset := off4 + cdl }
      else { st4 with offset := off4 }
    if st5.offset > buf.length then
      { st5 with err := some "Invalid rbd correction data" }
    else st5

/-- The per-node part of the `kDynamicsCorrection` loop (client_session.cc
lines 239-290): read a `uint32` node id and a body-count byte (unchecked),
look the node up (null when the id is out of range or the slot is empty),
run the body loop, then handle the custom-data tail. -/
def dynNodeStep (buf : Cmd) (nodes : List (Option NodeM)) (st : DynSt) :
    DynSt :=
  if st.err.isSome then st
  else
    let nodeId := u32At buf st.offset
    let st1 := st.note st.offset 4
    let off1 := st1.offset + 4
    let bodyCount := buf.getD off1 0
    let st2 := st1.note off1 1
    let n := nodeLookup nodes nodeId
    let st3 := (List.range bodyCount).foldl
      (fun s _ => dynBodyStep buf n nodeId s) { st2 with offset := off1 + 1 }
    dynNodeCustom buf n nodeId st3

/-- The `kDynamicsCorrection` case of `ClientSession::Update`
(client_session.cc lines 233-296): read the blend flag at index 1 and a
`uint16` node count at index 2 (both unchecked), run the node loop from
offset 4, and finally fail unless the offset equals the buffer size
exactly.  The opcode byte at index 0 was consumed by the (bounds-checked)
`ReadByte` before dispatch. -/
def dynCorrDecode (buf : Cmd) (nodes : List (Option NodeM)) : DynSt :=
  let nodeCount := u16At buf 2
  let st0 : DynSt := { offset := 4, maxRead := 4, events := [], err := none }
  let st := (List.range nodeCount).foldl
    (fun s _ => dynNodeStep buf nodes s) st0
  if st.err.isSome then st
  else if st.offset ≠ buf.length then
    { st with err := some "invalid rbd correction data" }
  else st

/-- A rigid body as seen by the blend handling: a position and an
accumulated smoothing (blend) offset, each an exact 3-vector. -/
structure RigidBodyM where
  pos : Int × Int × Int
  blendOffset : Int × Int × Int
  deriving Repr, DecidableEq

/-- Modelled from the spec: `RigidBody::ExtractFull` (outside the provided
sources) applies the full corrected state carried by the payload to the
body; in particular the body's position becomes the corrected position. -/
def extractFull (b : RigidBodyM) (corrected : Int × Int × Int) : RigidBodyM :=
  { b with pos := corrected }

/-- Modelled from the spec: `RigidBody::AddBlendOffset` (outside the
provided sources) accumulates a positional delta into the body's stored
smoothing offset. -/
def addBlendOffset (b : RigidBodyM) (d : Int × Int × Int) : RigidBodyM :=
  { b with blendOffset :=
      (b.blendOffset.1 + d.1, b.blendOffset.2.1 + d.2.1,
       b.blendOffset.2.2 + d.2.2) }

/-- The per-body correction application (client_session.cc lines 255-267):
capture the body's position, apply the full corrected state via
`ExtractFull`, and when the blend flag is set hand
`(old position - new position)` to `AddBlendOffset` (the position pointer
`p` is re-read after `ExtractFull`, so it holds the new position). -/
def applyBodyCorrection (blend : Bool) (b : RigidBodyM)
    (corrected : Int × Int × Int) : RigidBodyM :=
  let oldX := b.pos.1
  let oldY := b.pos.2.1
  let oldZ := b.pos.2.2
  let b' := extractFull b corrected
  if blend then
    addBlendOffset b'
      (oldX - b'.pos.1, oldY - b'.pos.2.1, oldZ - b'.pos.2.2)
  else b'

/-- The cleared command queues set up by `ClearSessionObjs`. -/
def initQueues : CmdQueues := { pending := [], ready := [], baseTimeBuffered := 0 }

/-- A well-formed step-advance command: the `kBaseTimeStep` opcode byte
followed by the little-endian 32-bit step size. -/
def stepCommand (s : Nat) : Cmd := kBaseTimeStep :: le32 s

/-- The ready list decomposed into whole steps: it grows only by blocks
consisting of non-step commands followed by a single step command. -/
inductive WholeSteps : List Cmd → Prop
  | nil : WholeSteps []
  | flush (l xs : List Cmd) (s : Cmd) : WholeSteps l →
      (∀ c ∈ xs, isStepCmd c = false) → isStepCmd s = true →
      WholeSteps (l ++ (xs ++ [s]))

/-- The integer skipped-offset computation the per-body loop performs for
absent bodies: each body entry advances the offset by 1 (body index) + 2
(declared length) + the declared length, failing when the offset passes
the buffer end. -/
def skipBodies (buf : Cmd) : Nat → Nat → Option Nat
  | 0, o => some o
  | k + 1, o =>
    let len := u16At buf (o + 1)
    let o' := o + 3 + len
    if o' > buf.length then none else skipBodies buf k o'

/-- The skipped-offset computation for a whole node entry whose node is
absent: 4 bytes of node id, 1 body-count byte, the body entries, then 2
bytes of custom-data length plus that many data bytes, with the same
bound checks the code performs. -/
def skipNodeEntry (buf : Cmd) (o : Nat) : Option Nat :=
  match skipBodies buf (buf.getD (o + 4) 0) (o + 4 + 1) with
  | none => none
  | some o1 =>
    if o1 > buf.length then none
    else
      let cdl := u16At buf o1
      let o2 := o1 + 2 + cdl
      if o2 > buf.length then none else some o2

/-- A byte taken from a buffer of bytes is below 256 (out-of-range reads
are modelled as 0). -/
lemma getD_lt_256 {buf : Cmd} (hb : ∀ b ∈ buf, b < 256) (i : Nat) :
    buf.getD i 0 < 256 := by
  by_cases h : i < buf.length
  · rw [List.getD_eq_getElem buf 0 h]
    exact hb _ (buf.getElem_mem h)
  · rw [List.getD_eq_default buf 0 (by omega)]
    omega

/-- For a buffer of bytes, the unsigned 32-bit read fits in 32 bits. -/
lemma u32At_lt {buf : Cmd} (hb : ∀ b ∈ buf, b < 256) (i : Nat) :
    u32At buf i < 4294967296 := by
  have h0 := getD_lt_256 hb i
  have h1 := getD_lt_256 hb (i + 1)
  have h2 := getD_lt_256 hb (i + 2)
  have h3 := getD_lt_256 hb (i + 3)
  unfold u32At
  omega

/-- For a buffer of bytes, the signed 32-bit read lies in the `int32_t`
range. -/
lemma int32At_bounds {buf : Cmd} (hb : ∀ b ∈ buf, b < 256) (i : Nat) :
    -2147483648 ≤ int32At buf i ∧ int32At buf i < 2147483648 := by
  have h := u32At_lt hb i
  unfold int32At
  by_cases hu : u32At buf i < 2147483648 <;> simp only [hu, if_true, if_false,
    reduceIte] <;> omega

/-- Claim C1: on the 4-byte buffer `FF FF FF FF` (length field = -1) at
position 0, `ReadString` does not fail: the signed length makes the bound
check `ptr > base + size - size_field` compare against a limit one past
the buffer end, so the check passes, and the `memcpy` is then asked to
copy `static_cast<size_t>(-1) = 2^64 - 1` bytes starting at index 4 -
reading far beyond the 4-byte buffer instead of failing with a stream
read error before copying. -/
theorem ReadString_negative_length_not_bounds_checked :
    (Ballistica.ReadString [255, 255, 255, 255] 0).toOption.map
        (fun o => (o.copyStart, o.copyCount, o.newPos))
      = some (4, 18446744073709551615, 3)
    ∧ 4 + 18446744073709551615 >
        ([255, 255, 255, 255] : Ballistica.Cmd).length := by
  exact ⟨by decide, by decide⟩

/-- Claim C4: on the corrupt dynamics-correction buffer `[2, 0, 1, 0]`
(blend byte 0, declared node count 1, buffer length 4), the decoder reads
the 4-byte node id at offsets 4..7 and the body-count byte at offset 8 -
all past the buffer end - before its first bound check fires (`maxRead`
reaches 9 while the buffer has 4 bytes), so the error is raised only
after reading beyond the buffer. -/
theorem dynamicsCorrection_reads_past_buffer :
    Ballistica.dynCorrDecode [Ballistica.kDynamicsCorrection, 0, 1, 0] []
      = { offset := 9, maxRead := 9, events := []
          err := some "Invalid rbd correction data" }
    ∧ (9 : Nat) > ([Ballistica.kDynamicsCorrection, 0, 1, 0] : Ballistica.Cmd).length := by
  exact ⟨by decide, by decide⟩

/-- Claim C7: on the COMMANDS envelope `[3, 3, 0, 9]` (kind byte, then a
sub-record declaring length 3 with only 1 payload byte present), the
bound check `offset + size > buffer.size()` omits the 2 length-prefix
bytes, so it passes (1 + 3 = 4, not > 4); the payload copy then reads
bytes 3..5 - two bytes past the 4-byte envelope (`maxRead` = 6) - and a
3-byte command built partly from out-of-range bytes is enqueued with no
session error, after which the offset (6) has overshot the envelope end. -/
theorem sessionCommands_split_overrun :
    Ballistica.splitCommands [3, 3, 0, 9] 1
      = { offset := 6, maxRead := 6, added := [[9, 0, 0]], errored := false
          done := false }
    ∧ (6 : Nat) > ([3, 3, 0, 9] : Ballistica.Cmd).length := by
  exact ⟨by decide, by decide⟩

/-- Claim C6 (counterexample): a command added after `End` is not dropped -
`AddCommand` never consults the shutting-down flag, so the command is
enqueued on the pending list exactly as before shutdown. -/
theorem addCommand_after_end_enqueues :
    (Ballistica.SessionAddCommand
        (Ballistica.EndSession Ballistica.initSession) [5]).queues.pending
      = [[5]] := by
  decide

/-- Claim C5: applying a correction sets
the body's position to the full corrected state; with the blend flag set
the smoothing offset changes by exactly (old position - new position)
componentwise, and with it clear the smoothing offset is unchanged. -/
theorem applyBodyCorrection_blend_offset_delta :
    ∀ (blend : Bool) (b : Ballistica.RigidBodyM) (c : Int × Int × Int),
    (Ballistica.applyBodyCorrection blend b c).pos = c
    ∧ (blend = true →
        (Ballistica.applyBodyCorrection blend b c).blendOffset =
          (b.blendOffset.1 + (b.pos.1 - c.1),
           b.blendOffset.2.1 + (b.pos.2.1 - c.2.1),
           b.blendOffset.2.2 + (b.pos.2.2 - c.2.2)))
    ∧ (blend = false →
        (Ballistica.applyBodyCorrection blend b c).blendOffset =
          b.blendOffset) := by
  intro blend b c
  cases blend <;>
    simp [Ballistica.applyBodyCorrection, Ballistica.extractFull,
      Ballistica.addBlendOffset]

/-- Claim C5 witness: the theorem applied with and without the blend flag
at a concrete body and corrected position. -/
theorem applyBodyCorrection_blend_offset_delta_witness :
    (Ballistica.applyBodyCorrection true
        { pos := (10, 20, 30), blendOffset := (1, 2, 3) } (4, 5, 6)).blendOffset
      = (1 + (10 - 4), 2 + (20 - 5), 3 + (30 - 6))
    ∧ (Ballistica.applyBodyCorrection false
        { pos := (10, 20, 30), blendOffset := (1, 2, 3) } (4, 5, 6)).blendOffset
      = (1, 2, 3) := by
  exact
    ⟨(applyBodyCorrection_blend_offset_delta true
        { pos := (10, 20, 30), blendOffset := (1, 2, 3) } (4, 5, 6)).2.1 rfl,
     (applyBodyCorrection_blend_offset_delta false
        { pos := (10, 20, 30), blendOffset := (1, 2, 3) } (4, 5, 6)).2.2 rfl⟩

/-- Claim C2: the step-advance handler decodes a 32-bit step size (a
decode failure propagates); a decoded size that is not strictly positive,
exceeds 10000, or would drive the buffered-time counter negative makes
the handler fail; otherwise the buffered-time counter is decremented by
exactly the step size and elapsed base time is incremented by the same
amount. -/
theorem baseTimeStep_step_spec :
    ∀ (buf : Ballistica.Cmd) (pos : Nat) (buffered base : Int),
    (∀ e, Ballistica.ReadInt32 buf pos = .error e →
        Ballistica.execBaseTimeStep buf pos buffered base = .error e)
    ∧ ∀ s p, Ballistica.ReadInt32 buf pos = .ok (s, p) →
        ((s ≤ 0 ∨ s > 10000 ∨ buffered < s) →
          ∃ e, Ballistica.execBaseTimeStep buf pos buffered base = .error e)
        ∧ (0 < s → s ≤ 10000 → s ≤ buffered →
          Ballistica.execBaseTimeStep buf pos buffered base =
            .ok (buffered - s, base + s, p)) := by
  intro buf pos buffered base
  constructor
  · intro e he
    unfold Ballistica.execBaseTimeStep
    rw [he]
  · intro s p hs
    unfold Ballistica.execBaseTimeStep
    rw [hs]
    constructor
    · rintro (h | h | h)
      · exact ⟨"precondition failed: stepsize > 0",
          by simp [show ¬ s > 0 by omega]⟩
      · exact ⟨"got abnormally large stepsize; probably a corrupt stream",
          by simp [h, show s > 0 by omega]⟩
      · by_cases h0 : s > 0
        · by_cases h1 : s > 10000
          · exact ⟨"got abnormally large stepsize; probably a corrupt stream",
              by simp [h0, h1]⟩
          · exact ⟨"precondition failed: base_time_buffered_ >= 0",
              by simp [h0, h1, show ¬ buffered - s ≥ 0 by omega]⟩
        · exact ⟨"precondition failed: stepsize > 0", by simp [h0]⟩
    · intro h0 h1 h2
      simp [show ¬ s > 10000 by omega, show buffered - s ≥ 0 by omega,
        show s > 0 by omega]

/-- Claim C2 witness: a 16-millisecond step decoded from the buffer
`[16, 0, 0, 0]` with 20 units buffered and base time 5 succeeds, leaving
4 units buffered and base time 21. -/
theorem baseTimeStep_step_spec_witness :
    Ballistica.execBaseTimeStep [16, 0, 0, 0] 0 20 5 = .ok (4, 21, 4) := by
  have h := ((baseTimeStep_step_spec [16, 0, 0, 0] 0 20 5).2 16 4
    (by decide)).2 (by decide) (by decide) (by decide)
  simpa using h

/-- Claim C6 (amended): a session transitions to the shutting-down state
at most once (`End` is idempotent and pushes the main-menu launch call
only on the first transition); once shutting down, every `Update` call
returns immediately with the session state unchanged; commands added
after shutdown are NOT dropped - `AddCommand` ignores the shutting-down
flag and enqueues them exactly as before shutdown (they are merely never
executed, since `Update` is a no-op). -/
theorem shutdown_behavior :
    ∀ (body : Ballistica.Session → Int → Ballistica.Session)
      (s : Ballistica.Session) (t : Int) (c : Ballistica.Cmd),
    Ballistica.EndSession (Ballistica.EndSession s) = Ballistica.EndSession s
    ∧ (Ballistica.EndSession s).shuttingDown = true
    ∧ (s.shuttingDown = true → Ballistica.UpdateSession body s t = s)
    ∧ Ballistica.SessionAddCommand (Ballistica.EndSession s) c
        = Ballistica.EndSession (Ballistica.SessionAddCommand s c) := by
  intro body s t c
  refine ⟨?_, ?_, ?_, ?_⟩
  · unfold Ballistica.EndSession
    by_cases h : s.shuttingDown <;> simp [h]
  · unfold Ballistica.EndSession
    by_cases h : s.shuttingDown <;> simp [h]
  · intro h
    unfold Ballistica.UpdateSession
    simp [h]
  · unfold Ballistica.EndSession Ballistica.SessionAddCommand
    by_cases h : s.shuttingDown <;> simp [h]

/-- Claim C6 witness: the shutdown behavior evaluated on a concrete
shut-down session, with the `Update` hypothesis discharged. -/
theorem shutdown_behavior_witness :
    Ballistica.EndSession (Ballistica.EndSession
        (Ballistica.EndSession Ballistica.initSession))
      = Ballistica.EndSession (Ballistica.EndSession Ballistica.initSession)
    ∧ Ballistica.UpdateSession (fun s _ => s)
        (Ballistica.EndSession Ballistica.initSession) 5
      = Ballistica.EndSession Ballistica.initSession
    ∧ Ballistica.SessionAddCommand
        (Ballistica.EndSession (Ballistica.EndSession Ballistica.initSession)) [7]
      = Ballistica.EndSession (Ballistica.SessionAddCommand
          (Ballistica.EndSession Ballistica.initSession) [7]) := by
  exact
    ⟨(shutdown_behavior (fun s _ => s)
        (Ballistica.EndSession Ballistica.initSession) 5 [7]).1,
     (shutdown_behavior (fun s _ => s)
        (Ballistica.EndSession Ballistica.initSession) 5 [7]).2.2.1 (by decide),
     (shutdown_behavior (fun s _ => s)
        (Ballistica.EndSession Ballistica.initSession) 5 [7]).2.2.2⟩

/-- Claim C8: enqueuing a well-formed step command with 32-bit step size
`s` increments the buffered-time tally by `command[1]`, the low byte
`s % 256` of the little-endian step size; executing the same command
decrements the counter by the full decoded size `s`; the two amounts
agree exactly when `s < 256`. -/
theorem addCommand_step_low_byte_tally :
    ∀ (q : Ballistica.CmdQueues) (s : Nat) (buffered base : Int),
    s ≤ 10000 →
    (Ballistica.AddCommand q (Ballistica.stepCommand s)).baseTimeBuffered
      = q.baseTimeBuffered + (s % 256 : Nat)
    ∧ (0 < s → (s : Int) ≤ buffered →
        Ballistica.execBaseTimeStep (Ballistica.stepCommand s) 1 buffered base
          = .ok (buffered - s, base + s, 5))
    ∧ (s % 256 = s ↔ s < 256) := by
  intro q s buffered base hs
  have hdec : Ballistica.int32At (Ballistica.stepCommand s) 1 = s := by
    unfold Ballistica.int32At Ballistica.u32At Ballistica.stepCommand
      Ballistica.le32
    simp only [List.getD, List.get?]
    norm_num
    omega
  refine ⟨?_, ?_, ?_⟩
  · unfold Ballistica.AddCommand Ballistica.isStepCmd Ballistica.stepCommand
      Ballistica.le32
    simp
  · intro h0 h1
    unfold Ballistica.execBaseTimeStep Ballistica.ReadInt32
    rw [if_neg (by simp [Ballistica.stepCommand, Ballistica.le32])]
    rw [hdec]
    simp only
    rw [if_neg (by omega), if_neg (by omega), if_neg (by omega)]
  · omega

/-- Claim C8 witness: with step size 300, enqueuing adds only the low
byte 44 to the tally while execution subtracts the full 300; with the
hypothesis `300 < 256` false, the two amounts differ. -/
theorem addCommand_step_low_byte_tally_witness :
    (Ballistica.AddCommand Ballistica.initQueues
        (Ballistica.stepCommand 300)).baseTimeBuffered
      = 0 + ((300 % 256 : Nat) : Int)
    ∧ Ballistica.execBaseTimeStep (Ballistica.stepCommand 300) 1 1000 0
        = .ok (1000 - 300, 0 + 300, 5)
    ∧ (300 % 256 = 300 ↔ 300 < 256) := by
  exact
    ⟨(addCommand_step_low_byte_tally Ballistica.initQueues 300 1000 0
        (by decide)).1,
     (addCommand_step_low_byte_tally Ballistica.initQueues 300 1000 0
        (by decide)).2.1 (by decide) (by decide),
     (addCommand_step_low_byte_tally Ballistica.initQueues 300 1000 0
        (by decide)).2.2⟩

/-- When the copied span lies inside the buffer, the NUL-truncated copy
equals `takeWhile (· != 0)` of the actual payload slice. -/
lemma payloadTrunc_eq_takeWhile (buf : Cmd) :
    ∀ (n i : Nat), i + n ≤ buf.length →
    payloadTrunc buf i n = ((buf.drop i).take n).takeWhile (fun b => b != 0) := by
  intro n
  induction n with
  | zero => intro i _; simp [payloadTrunc]
  | succ n ih =>
    intro i h
    have hi : i < buf.length := by omega
    rw [List.drop_eq_getElem_cons hi, List.take_succ_cons, List.takeWhile_cons]
    unfold payloadTrunc
    rw [List.getD_eq_getElem buf 0 hi]
    by_cases hz : buf[i] = 0
    · simp [hz]
    · simp only [hz, if_false, bne_iff_ne, ne_eq, not_false_eq_true, cond_true,
        reduceIte]
      rw [ih (i + 1) (by omega)]

/-- Claim C10: for every successful `ReadString` with a nonnegative
length field `L` over a buffer of bytes, the whole span `4 + L` lies in
the buffer, the returned string is the `L` payload bytes truncated at the
first zero byte (`takeWhile (· != 0)` of the payload slice - so an
embedded NUL truncates it), and the cursor still advances by the full
`4 + L` bytes. -/
theorem ReadString_truncates_at_first_nul :
    ∀ (buf : Ballistica.Cmd) (pos : Nat) (o : Ballistica.ReadStringOut),
    (∀ b ∈ buf, b < 256) →
    Ballistica.ReadString buf pos = .ok o →
    0 ≤ Ballistica.int32At buf pos →
    pos + 4 + (Ballistica.int32At buf pos).toNat ≤ buf.length
    ∧ o.chars = ((buf.drop (pos + 4)).take
        (Ballistica.int32At buf pos).toNat).takeWhile (fun b => b != 0)
    ∧ o.newPos = (pos : Int) + 4 + (Ballistica.int32At buf pos).toNat
    ∧ o.copyCount = (Ballistica.int32At buf pos).toNat := by
  intro buf pos o hb hok hnn
  have hbd := Ballistica.int32At_bounds hb pos
  unfold Ballistica.ReadString at hok
  by_cases h1 : (pos : Int) > (buf.length : Int) - 4
  · rw [if_pos h1] at hok; exact absurd hok (by simp)
  · rw [if_neg h1] at hok
    by_cases h2 : ((pos + 4 : Nat) : Int) >
        (buf.length : Int) - Ballistica.int32At buf pos
    · rw [if_pos h2] at hok; exact absurd hok (by simp)
    · rw [if_neg h2] at hok
      have hcast : Ballistica.usizeCast (Ballistica.int32At buf pos)
          = (Ballistica.int32At buf pos).toNat := by
        unfold Ballistica.usizeCast
        rw [Int.emod_eq_of_lt hnn (by omega)]
      have hspan : pos + 4 + (Ballistica.int32At buf pos).toNat
          ≤ buf.length := by
        have : ((pos + 4 : Nat) : Int) + Ballistica.int32At buf pos
            ≤ (buf.length : Int) := by push_cast; push_cast at h2; omega
        omega
      have ho : o = { chars := Ballistica.payloadTrunc buf (pos + 4)
                        (Ballistica.usizeCast (Ballistica.int32At buf pos))
                      copyStart := pos + 4
                      copyCount := Ballistica.usizeCast
                        (Ballistica.int32At buf pos)
                      newPos := ((pos + 4 : Nat) : Int)
                        + Ballistica.int32At buf pos } := by
        exact (Except.ok.inj hok).symm
      subst ho
      refine ⟨hspan, ?_, ?_, ?_⟩
      · simp only [hcast]
        exact Ballistica.payloadTrunc_eq_takeWhile buf _ (pos + 4)
          (by omega)
      · simp only
        push_cast
        omega
      · simp only [hcast]

/-- Claim C10 witness: reading at position 0 of the buffer
`[3, 0, 0, 0, 65, 0, 66]` (length 3, payload `65 0 66` with an embedded
NUL) returns just `[65]` while the cursor advances the full 7 bytes. -/
theorem ReadString_truncates_at_first_nul_witness :
    0 + 4 + (Ballistica.int32At [3, 0, 0, 0, 65, 0, 66] 0).toNat
      ≤ ([3, 0, 0, 0, 65, 0, 66] : Ballistica.Cmd).length
    ∧ ({ chars := [65], copyStart := 4, copyCount := 3, newPos := 7 }
          : Ballistica.ReadStringOut).chars
        = ((([3, 0, 0, 0, 65, 0, 66] : Ballistica.Cmd).drop (0 + 4)).take
            (Ballistica.int32At [3, 0, 0, 0, 65, 0, 66] 0).toNat).takeWhile
            (fun b => b != 0)
    ∧ ({ chars := [65], copyStart := 4, copyCount := 3, newPos := 7 }
          : Ballistica.ReadStringOut).newPos
        = ((0 : Nat) : Int) + 4
          + (Ballistica.int32At [3, 0, 0, 0, 65, 0, 66] 0).toNat
    ∧ ({ chars := [65], copyStart := 4, copyCount := 3, newPos := 7 }
          : Ballistica.ReadStringOut).copyCount
        = (Ballistica.int32At [3, 0, 0, 0, 65, 0, 66] 0).toNat := by
  exact ReadString_truncates_at_first_nul [3, 0, 0, 0, 65, 0, 66] 0
    { chars := [65], copyStart := 4, copyCount := 3, newPos := 7 }
    (by decide) (by decide) (by decide)

/-- One `AddCommand` preserves the queue invariant: the pending list
holds no step command, and the ready list decomposes into whole steps. -/
lemma AddCommand_preserves_inv (q : CmdQueues) (c : Cmd)
    (hp : ∀ d ∈ q.pending, isStepCmd d = false) (hr : WholeSteps q.ready) :
    (∀ d ∈ (AddCommand q c).pending, isStepCmd d = false)
    ∧ WholeSteps (AddCommand q c).ready := by
  unfold AddCommand
  by_cases h : isStepCmd c = true
  · simp only [h, reduceIte]
    exact ⟨by simp, WholeSteps.flush q.ready q.pending c hr hp h⟩
  · simp only [h, reduceIte]
    refine ⟨?_, hr⟩
    intro d hd
    rcases List.mem_append.mp hd with h1 | h1
    · exact hp d h1
    · rw [List.mem_singleton.mp h1]
      exact Bool.not_eq_true _ ▸ h

/-- Folding `AddCommand` over any command list preserves the queue
invariant. -/
lemma foldl_AddCommand_inv :
    ∀ (cs : List Cmd) (q : CmdQueues),
    (∀ d ∈ q.pending, isStepCmd d = false) → WholeSteps q.ready →
    (∀ d ∈ (cs.foldl AddCommand q).pending, isStepCmd d = false)
    ∧ WholeSteps (cs.foldl AddCommand q).ready := by
  intro cs
  induction cs with
  | nil => intro q hp hr; exact ⟨hp, hr⟩
  | cons c cs ih =>
    intro q hp hr
    have h := AddCommand_preserves_inv q c hp hr
    exact ih (AddCommand q c) h.1 h.2

/-- Claim C3: a non-step command only extends the pending list; a step
command flushes the whole pending list (with the step at its end) onto
the ready list at once; and after adding any interleaving of commands to
a fresh session the pending list holds no step command while the ready
list decomposes into whole-step blocks, so the interpreter never sees a
partially received step. -/
theorem addCommand_whole_step_units :
    (∀ (q : Ballistica.CmdQueues) (c : Ballistica.Cmd),
        Ballistica.isStepCmd c = false →
        (Ballistica.AddCommand q c).ready = q.ready
        ∧ (Ballistica.AddCommand q c).pending = q.pending ++ [c])
    ∧ (∀ (q : Ballistica.CmdQueues) (c : Ballistica.Cmd),
        Ballistica.isStepCmd c = true →
        (Ballistica.AddCommand q c).ready = q.ready ++ (q.pending ++ [c])
        ∧ (Ballistica.AddCommand q c).pending = [])
    ∧ (∀ cs : List Ballistica.Cmd,
        (∀ d ∈ (cs.foldl Ballistica.AddCommand Ballistica.initQueues).pending,
          Ballistica.isStepCmd d = false)
        ∧ Ballistica.WholeSteps
            ((cs.foldl Ballistica.AddCommand Ballistica.initQueues).ready)) := by
  refine ⟨?_, ?_, ?_⟩
  · intro q c h
    unfold Ballistica.AddCommand
    simp [h]
  · intro q c h
    unfold Ballistica.AddCommand
    simp [h]
  · intro cs
    exact Ballistica.foldl_AddCommand_inv cs Ballistica.initQueues
      (by simp [Ballistica.initQueues]) Ballistica.WholeSteps.nil

/-- Claim C3 witness: a non-step command `[5]` goes to pending with the
ready list untouched; a bare step command `[1]` flushes pending to
ready. -/
theorem addCommand_whole_step_units_witness :
    ((Ballistica.AddCommand Ballistica.initQueues [5]).ready
        = Ballistica.initQueues.ready
      ∧ (Ballistica.AddCommand Ballistica.initQueues [5]).pending
        = Ballistica.initQueues.pending ++ [[5]])
    ∧ ((Ballistica.AddCommand Ballistica.initQueues
          [Ballistica.kBaseTimeStep]).ready
        = Ballistica.initQueues.ready
          ++ (Ballistica.initQueues.pending ++ [[Ballistica.kBaseTimeStep]])
      ∧ (Ballistica.AddCommand Ballistica.initQueues
          [Ballistica.kBaseTimeStep]).pending = []) := by
  exact
    ⟨addCommand_whole_step_units.1 Ballistica.initQueues [5] (by decide),
     addCommand_whole_step_units.2.1 Ballistica.initQueues
       [Ballistica.kBaseTimeStep] (by decide)⟩

/-- A fold over `List.range` with a body that ignores the index is an
iterate of the body. -/
lemma foldl_range_const {α : Type} (f : α → α) :
    ∀ (k : Nat) (st : α), (List.range k).foldl (fun s _ => f s) st = f^[k] st := by
  intro k
  induction k with
  | zero => intro st; simp
  | succ k ih =>
    intro st
    rw [List.range_succ, List.foldl_append, ih, List.foldl_cons,
      List.foldl_nil, Function.iterate_succ_apply']

/-- `dynBodyStep` leaves an errored state untouched. -/
lemma dynBodyStep_err_fix (buf : Cmd) (n : Option NodeM) (nodeId : Nat)
    (st : DynSt) (h : st.err.isSome = true) :
    dynBodyStep buf n nodeId st = st := by
  unfold dynBodyStep
  rw [if_pos h]

/-- Iterating `dynBodyStep` leaves an errored state untouched. -/
lemma dynBodyStep_iterate_err_fix (buf : Cmd) (n : Option NodeM)
    (nodeId : Nat) :
    ∀ (k : Nat) (st : DynSt), st.err.isSome = true →
    (dynBodyStep buf n nodeId)^[k] st = st := by
  intro k
  induction k with
  | zero => intro st _; rfl
  | succ k ih =>
    intro st h
    rw [Function.iterate_succ_apply, dynBodyStep_err_fix buf n nodeId st h,
      ih st h]

/-- With no node present, the per-body loop applies no state change and
advances the offset exactly as `skipBodies` prescribes (or stops on a
bound-check error where `skipBodies` fails). -/
lemma dynBody_none_loop (buf : Cmd) (nodeId : Nat) :
    ∀ (k : Nat) (st : DynSt), st.err = none →
    ((dynBodyStep buf none nodeId)^[k] st).events = st.events
    ∧ (match skipBodies buf k st.offset with
       | some o => ((dynBodyStep buf none nodeId)^[k] st).err = none
           ∧ ((dynBodyStep buf none nodeId)^[k] st).offset = o
       | none => ((dynBodyStep buf none nodeId)^[k] st).err.isSome = true) := by
  intro k
  induction k with
  | zero =>
    intro st h
    refine ⟨rfl, ?_⟩
    simp only [skipBodies, Function.iterate_zero, id]
    exact ⟨h, trivial⟩
  | succ k ih =>
    intro st h
    have hguard : st.err.isSome = false := by rw [h]; rfl
    have hstep : dynBodyStep buf none nodeId st =
        (if st.offset + 3 + u16At buf (st.offset + 1) > buf.length then
          { st with
            maxRead := max (max st.maxRead (st.offset + 1)) (st.offset + 3)
            offset := st.offset + 3 + u16At buf (st.offset + 1)
            err := some "Invalid rbd correction data" }
        else
          { st with
            maxRead := max (max st.maxRead (st.offset + 1)) (st.offset + 3)
            offset := st.offset + 3 + u16At buf (st.offset + 1) }) := by
      unfold dynBodyStep
      rw [if_neg (by rw [hguard]; exact Bool.false_ne_true)]
      simp only [DynSt.note]
      rw [if_neg (by rw [h]; exact Bool.false_ne_true)]
    by_cases hb : st.offset + 3 + u16At buf (st.offset + 1) > buf.length
    · rw [if_pos hb] at hstep
      have herr : (dynBodyStep buf none nodeId st).err.isSome = true := by
        rw [hstep]; rfl
      rw [Function.iterate_succ_apply,
        dynBodyStep_iterate_err_fix buf none nodeId k _ herr, hstep]
      have hsb : skipBodies buf (k + 1) st.offset = none := by
        simp only [skipBodies]
        rw [if_pos hb]
      rw [hsb]
      exact ⟨rfl, rfl⟩
    · rw [if_neg hb] at hstep
      have h' : (dynBodyStep buf none nodeId st).err = none := by
        rw [hstep]; exact h
      have := ih (dynBodyStep buf none nodeId st) h'
      rw [Function.iterate_succ_apply]
      refine ⟨by rw [this.1, hstep], ?_⟩
      have hoff : (dynBodyStep buf none nodeId st).offset
          = st.offset + 3 + u16At buf (st.offset + 1) := by rw [hstep]
      have hsb : skipBodies buf (k + 1) st.offset
          = skipBodies buf k (st.offset + 3 + u16At buf (st.offset + 1)) := by
        simp only [skipBodies]
        rw [if_neg hb]
      rw [hsb]
      have h2 := this.2
      rw [hoff] at h2
      exact h2

/-- With no node present, the custom-data tail applies no state change
and advances past the declared custom data, failing exactly on the bound
checks. -/
lemma dynNodeCustom_none (buf : Cmd) (nodeId : Nat) (st3 : DynSt)
    (h3 : st3.err = none) :
    (dynNodeCustom buf none nodeId st3).events = st3.events
    ∧ (match (if st3.offset > buf.length then none
              else if st3.offset + 2 + u16At buf st3.offset > buf.length
                then none
                else some (st3.offset + 2 + u16At buf st3.offset)
              : Option Nat) with
       | some o2 => (dynNodeCustom buf none nodeId st3).err = none
           ∧ (dynNodeCustom buf none nodeId st3).offset = o2
       | none => (dynNodeCustom buf none nodeId st3).err.isSome = true) := by
  have hg : ¬ st3.err.isSome = true := by rw [h3]; exact Bool.false_ne_true
  unfold dynNodeCustom
  rw [if_neg hg]
  by_cases h1 : st3.offset > buf.length
  · rw [if_pos h1, if_pos h1]
    exact ⟨rfl, rfl⟩
  · rw [if_neg h1, if_neg h1]
    by_cases hc : u16At buf st3.offset = 0
    · rw [hc]
      simp only [DynSt.note, ne_eq, not_true_eq_false, if_false, reduceIte,
        Nat.add_zero]
      by_cases h2 : st3.offset + 2 > buf.length
      · rw [if_pos h2, if_pos h2]
        exact ⟨rfl, rfl⟩
      · rw [if_neg h2, if_neg h2]
        exact ⟨rfl, h3, rfl⟩
    · simp only [DynSt.note, ne_eq, hc, not_false_eq_true, if_true,
        reduceIte, Option.isSome_none, Bool.false_eq_true, if_false]
      by_cases h2 : st3.offset + 2 + u16At buf st3.offset > buf.length
      · rw [if_pos h2, if_pos h2]
        exact ⟨rfl, rfl⟩
      · rw [if_neg h2, if_neg h2]
        exact ⟨rfl, h3, rfl⟩

/-- Processing a node entry whose node lookup failed, abstracted over the
state the body loop starts from. -/
lemma dynNode_missing_aux (buf : Cmd) (nodeId k o : Nat) (S : DynSt)
    (hS : S.err = none) (hk : k = buf.getD (o + 4) 0)
    (hoff : S.offset = o + 4 + 1) :
    (dynNodeCustom buf none nodeId ((dynBodyStep buf none nodeId)^[k] S)).events
      = S.events
    ∧ (match skipNodeEntry buf o with
       | some o2 =>
          (dynNodeCustom buf none nodeId
            ((dynBodyStep buf none nodeId)^[k] S)).err = none
          ∧ (dynNodeCustom buf none nodeId
              ((dynBodyStep buf none nodeId)^[k] S)).offset = o2
       | none =>
          (dynNodeCustom buf none nodeId
            ((dynBodyStep buf none nodeId)^[k] S)).err.isSome = true) := by
  have hloop := dynBody_none_loop buf nodeId k S hS
  rw [hoff] at hloop
  unfold skipNodeEntry
  rw [← hk]
  cases hsb : skipBodies buf k (o + 4 + 1) with
  | none =>
    rw [hsb] at hloop
    have herr := hloop.2
    have hfix : dynNodeCustom buf none nodeId
        ((dynBodyStep buf none nodeId)^[k] S)
        = (dynBodyStep buf none nodeId)^[k] S := by
      unfold dynNodeCustom
      rw [if_pos herr]
    rw [hfix]
    exact ⟨hloop.1, herr⟩
  | some o1 =>
    rw [hsb] at hloop
    have hcust := dynNodeCustom_none buf nodeId
      ((dynBodyStep buf none nodeId)^[k] S) hloop.2.1
    rw [hloop.2.2] at hcust
    refine ⟨by rw [hcust.1, hloop.1], ?_⟩
    exact hcust.2

/-- Claim C9: during dynamics-correction processing, (a) a node id that
is out of range or refers to an empty slot raises no protocol error: the
whole entry is skipped by its declared lengths with no event applied,
and decoding continues (failing only on the usual bound checks); (b) a
body index for which the node has no rigid body likewise skips that
body's declared payload without any event or error. -/
theorem dynamicsCorrection_missing_node_body_skipped :
    (∀ (buf : Ballistica.Cmd) (nodes : List (Option Ballistica.NodeM))
       (st : Ballistica.DynSt),
      st.err = none →
      Ballistica.nodeLookup nodes (Ballistica.u32At buf st.offset) = none →
      (Ballistica.dynNodeStep buf nodes st).events = st.events
      ∧ (match Ballistica.skipNodeEntry buf st.offset with
         | some o2 => (Ballistica.dynNodeStep buf nodes st).err = none
             ∧ (Ballistica.dynNodeStep buf nodes st).offset = o2
         | none => (Ballistica.dynNodeStep buf nodes st).err.isSome = true))
    ∧ (∀ (buf : Ballistica.Cmd) (nd : Ballistica.NodeM) (nodeId : Nat)
         (st : Ballistica.DynSt),
      st.err = none →
      nd.bodies.getD (buf.getD st.offset 0) none = none →
      (Ballistica.dynBodyStep buf (some nd) nodeId st).events = st.events
      ∧ (if st.offset + 3 + Ballistica.u16At buf (st.offset + 1) > buf.length
         then (Ballistica.dynBodyStep buf (some nd) nodeId st).err.isSome
            = true
         else (Ballistica.dynBodyStep buf (some nd) nodeId st).err = none
           ∧ (Ballistica.dynBodyStep buf (some nd) nodeId st).offset
             = st.offset + 3 + Ballistica.u16At buf (st.offset + 1))) := by
  constructor
  · intro buf nodes st h hn
    have hguard : ¬ st.err.isSome = true := by
      rw [h]; exact Bool.false_ne_true
    unfold Ballistica.dynNodeStep
    rw [if_neg hguard]
    simp only [hn, Ballistica.foldl_range_const, Ballistica.DynSt.note]
    exact Ballistica.dynNode_missing_aux buf (Ballistica.u32At buf st.offset)
      (buf.getD (st.offset + 4) 0) st.offset _ h rfl rfl
  · intro buf nd nodeId st h hb
    have hguard : ¬ st.err.isSome = true := by
      rw [h]; exact Bool.false_ne_true
    unfold Ballistica.dynBodyStep
    rw [if_neg hguard]
    simp only [hb, Ballistica.DynSt.note, Option.isSome_none,
      Bool.false_eq_true, if_false, reduceIte]
    rw [if_neg hguard]
    by_cases h3 : st.offset + 1 + 2 + Ballistica.u16At buf (st.offset + 1)
        > buf.length
    · rw [if_pos h3, if_pos (by omega :
        st.offset + 3 + Ballistica.u16At buf (st.offset + 1) > buf.length)]
      exact ⟨rfl, rfl⟩
    · rw [if_neg h3, if_neg (by omega :
        ¬ st.offset + 3 + Ballistica.u16At buf (st.offset + 1) > buf.length)]
      exact ⟨rfl, h, by dsimp only⟩

/-- Claim C9 witness: a correction entry for unknown node id 7 over an
empty node table is skipped by its declared lengths with no event, and a
body entry for a node with no rigid body at index 0 is likewise
skipped. -/
theorem dynamicsCorrection_missing_node_body_skipped_witness :
    ((Ballistica.dynNodeStep
        [2, 1, 1, 0, 7, 0, 0, 0, 1, 0, 2, 0, 170, 187, 1, 0, 204] []
        { offset := 4, maxRead := 4, events := [], err := none }).events
      = ({ offset := 4, maxRead := 4, events := [], err := none }
          : Ballistica.DynSt).events
    ∧ (match Ballistica.skipNodeEntry
          [2, 1, 1, 0, 7, 0, 0, 0, 1, 0, 2, 0, 170, 187, 1, 0, 204] 4 with
       | some o2 => (Ballistica.dynNodeStep
            [2, 1, 1, 0, 7, 0, 0, 0, 1, 0, 2, 0, 170, 187, 1, 0, 204] []
            { offset := 4, maxRead := 4, events := [], err := none }).err = none
          ∧ (Ballistica.dynNodeStep
              [2, 1, 1, 0, 7, 0, 0, 0, 1, 0, 2, 0, 170, 187, 1, 0, 204] []
              { offset := 4, maxRead := 4, events := [], err := none }).offset
            = o2
       | none => (Ballistica.dynNodeStep
            [2, 1, 1, 0, 7, 0, 0, 0, 1, 0, 2, 0, 170, 187, 1, 0, 204] []
            { offset := 4, maxRead := 4, events := [], err := none
              }).err.isSome = true))
    ∧ ((Ballistica.dynBodyStep
        [2, 1, 1, 0, 7, 0, 0, 0, 1, 0, 2, 0, 170, 187, 1, 0, 204]
        (some { bodies := [] }) 7
        { offset := 9, maxRead := 9, events := [], err := none }).events
      = ({ offset := 9, maxRead := 9, events := [], err := none }
          : Ballistica.DynSt).events
    ∧ (if 9 + 3 + Ballistica.u16At
          [2, 1, 1, 0, 7, 0, 0, 0, 1, 0, 2, 0, 170, 187, 1, 0, 204] (9 + 1)
          > ([2, 1, 1, 0, 7, 0, 0, 0, 1, 0, 2, 0, 170, 187, 1, 0, 204]
              : Ballistica.Cmd).length
       then (Ballistica.dynBodyStep
            [2, 1, 1, 0, 7, 0, 0, 0, 1, 0, 2, 0, 170, 187, 1, 0, 204]
            (some { bodies := [] }) 7
            { offset := 9, maxRead := 9, events := [], err := none
              }).err.isSome = true
       else (Ballistica.dynBodyStep
            [2, 1, 1, 0, 7, 0, 0, 0, 1, 0, 2, 0, 170, 187, 1, 0, 204]
            (some { bodies := [] }) 7
            { offset := 9, maxRead := 9, events := [], err := none }).err
            = none
          ∧ (Ballistica.dynBodyStep
              [2, 1, 1, 0, 7, 0, 0, 0, 1, 0, 2, 0, 170, 187, 1, 0, 204]
              (some { bodies := [] }) 7
              { offset := 9, maxRead := 9, events := [], err := none }).offset
            = 9 + 3 + Ballistica.u16At
                [2, 1, 1, 0, 7, 0, 0, 0, 1, 0, 2, 0, 170, 187, 1, 0, 204]
                (9 + 1))) := by
  exact
    ⟨dynamicsCorrection_missing_node_body_skipped.1
        [2, 1, 1, 0, 7, 0, 0, 0, 1, 0, 2, 0, 170, 187, 1, 0, 204] []
        { offset := 4, maxRead := 4, events := [], err := none }
        rfl (by decide),
     dynamicsCorrection_missing_node_body_skipped.2
        [2, 1, 1, 0, 7, 0, 0, 0, 1, 0, 2, 0, 170, 187, 1, 0, 204]
        { bodies := [] } 7
        { offset := 9, maxRead := 9, events := [], err := none }
        rfl (by decide)⟩

end Ballistica
